import Mathlib

set_option maxHeartbeats 1000000

/-!
Verification of the tokenizer engine in `tokenizer.go` (package `tokenizer`).

The engine stores `tokenRecord` documents in a single collection.  The struct's
fields `Text` and `Token` carry no bson tags, so mgo marshals them under the
lowercased keys `text` and `token`; no stored document ever has an `original`
key.  `Tokenize` loops: query the collection by the bson key `original` (which
therefore never matches an engine-inserted document); on the resulting miss,
generate a guid, base64-encode its decimal rendering, and try to insert the new
record; a duplicate-key failure (MongoDB error code 11000) retries the loop,
any other failure exits.  `NewMongoTokenizer` declares unique indexes on the
keys `original` and `token`, both with `Sparse: true`: the `original` index
covers no stored document (the key is absent everywhere) and so never rejects
an insert, while the `token` index rejects duplicate tokens.  `Detokenize` is a
single lookup by the bson key `token`, which does match the stored documents.

Two complementary embeddings are given:
* a store-level semantics (`Tokenize`, `Detokenize`) where the store is a list
  of marshaled documents, queries resolve bson keys through `bsonGet` (first
  match wins), and an insert fails with error code 11000 exactly when an
  effective unique index is violated — that is, on a duplicate `token`; the
  generator's successive outputs are a list of naturals; and
* a response-trace semantics (`TokenizeR`, `DetokenizeResp`) where the outcome
  of every store or generator call is an arbitrary injected response, used for
  the error-path claims.

Both translate the same Go functions statement by statement, including the
shadowing of `err` by `guid, err := guid.NextId()` inside the loop body: the
`err` value returned at the end of `Tokenize` is the one assigned by
`fetchToken`, not the one assigned by `col.Insert`.
-/

/-- `tokenRecord` from `tokenizer.go`: the sole persisted entity, holding the
original text and its token.  The fields have no bson tags. -/
structure tokenRecord where
  text : String
  token : String
deriving DecidableEq

/-- The bson document marshaled from a `tokenRecord` by mgo: untagged exported
fields are stored under their lowercased names, so the document has exactly the
keys `text` and `token` — in particular, no `original` key. -/
def bsonGet (r : tokenRecord) : String → Option String
  | "text" => some r.text
  | "token" => some r.token
  | _ => none

/-- Store-driver errors as the engine observes them: `mgo.NotFound`, an
`*mgo.LastError` carrying a numeric code, or any other driver error
(connection failures and the like, distinguished by an index). -/
inductive MgoErr where
  | notFound
  | lastError (code : Int)
  | other (id : Nat)
deriving DecidableEq

/-- The duplicate-key test from `Tokenize`:
`if e, ok := err.(*mgo.LastError); ok && e.Code == 11000`. -/
def isDupKey : MgoErr → Bool
  | MgoErr.lastError c => c == 11000
  | _ => false

/-- The standard base64 alphabet used by Go's `encoding/base64.StdEncoding`. -/
def b64Alphabet : List Char :=
  "ABCDEFGHIJKLMNOPQRSTUVWXYZabcdefghijklmnopqrstuvwxyz0123456789+/".toList

/-- Character of the base64 alphabet at a 6-bit index. -/
def b64Char (n : Nat) : Char := b64Alphabet.getD n 'A'

/-- RFC 4648 base64 with `=` padding over a byte list, as
`base64.StdEncoding.EncodeToString`. -/
def base64Chunks : List Nat → String
  | [] => ""
  | [b1] => String.mk [b64Char (b1 / 4), b64Char (b1 % 4 * 16), '=', '=']
  | [b1, b2] =>
    String.mk [b64Char (b1 / 4), b64Char (b1 % 4 * 16 + b2 / 16), b64Char (b2 % 16 * 4), '=']
  | b1 :: b2 :: b3 :: rest =>
    String.mk [b64Char (b1 / 4), b64Char (b1 % 4 * 16 + b2 / 16),
      b64Char (b2 % 16 * 4 + b3 / 64), b64Char (b3 % 64)] ++ base64Chunks rest

/-- Token minting in `Tokenize`:
`base64.StdEncoding.EncodeToString([]byte(fmt.Sprintf("%v", guid)))`, i.e.
base64 of the ASCII bytes of the guid's decimal rendering. -/
def encodeToken (g : Nat) : String :=
  base64Chunks ((toString g).toList.map Char.toNat)

/-- `fetchToken` from `tokenizer.go`: the query is
`col.Find(bson.M, original s).One(&result)`, i.e. it selects the first
document whose bson key `original` has value `s`.  Because the marshaled
documents only carry the keys `text` and `token` (see `bsonGet`), this query
can never match an engine-inserted record: the lookup always reports
`mgo.NotFound` on engine-populated stores. -/
def fetchToken (st : List tokenRecord) (s : String) : Except MgoErr String :=
  match st.find? (fun r => bsonGet r "original" == some s) with
  | some r => Except.ok r.token
  | none => Except.error MgoErr.notFound

/-- `col.Insert(&trec)` under the two indexes declared by `NewMongoTokenizer`.
Both are unique and sparse.  The index on the key `original` indexes no stored
document — every document lacks that key — so it never rejects an insert; a
conflict on it would require two documents that both carry the key with equal
values.  The index on the key `token` covers every document and rejects a
duplicate token with duplicate-key error code 11000. -/
def insertRecord (st : List tokenRecord) (r : tokenRecord) :
    Except MgoErr (List tokenRecord) :=
  if st.any (fun q =>
      ((bsonGet q "original").isSome && bsonGet q "original" == bsonGet r "original")
      || bsonGet q "token" == bsonGet r "token") then
    Except.error (MgoErr.lastError 11000)
  else
    Except.ok (st ++ [r])

/-- Result of a `Tokenize` call: the returned `(result, err)` pair, a
`log.Panic`, or fuel exhaustion (the loop still running when the supplied
generator outputs run out). -/
inductive TokOutcome where
  | ret (result : String) (err : Option MgoErr)
  | panicked
  | outOfFuel
deriving DecidableEq

/-- `Tokenize` from `tokenizer.go` over the store-level semantics.  The list of
naturals supplies the successive guids from `guid.NextId()`; one is consumed
per mint attempt.  The returned error reproduces the Go code faithfully: the
function-level `err` is last written by `fetchToken`, because
`guid, err := guid.NextId()` shadows it inside the loop body, so a successful
insert still returns the `mgo.NotFound` produced by the preceding lookup. -/
def Tokenize (s : String) : List Nat → List tokenRecord → TokOutcome × List tokenRecord
  | [], st =>
    match fetchToken st s with
    | Except.ok token => (TokOutcome.ret token none, st)
    | Except.error e =>
      if e = MgoErr.notFound then (TokOutcome.outOfFuel, st)
      else (TokOutcome.ret "" (some e), st)
  | g :: gens, st =>
    match fetchToken st s with
    | Except.ok token => (TokOutcome.ret token none, st)
    | Except.error e =>
      if e = MgoErr.notFound then
        match insertRecord st { text := s, token := encodeToken g } with
        | Except.ok st2 => (TokOutcome.ret (encodeToken g) (some MgoErr.notFound), st2)
        | Except.error e2 =>
          if isDupKey e2 then Tokenize s gens st
          else (TokOutcome.ret "" (some MgoErr.notFound), st)
      else (TokOutcome.ret "" (some e), st)

/-- Injected responses for one iteration of the `Tokenize` loop: the result of
`fetchToken`, of `guid.NextId()`, and of `col.Insert` (`none` meaning the
insert succeeded). -/
structure IterResp where
  fetch : Except MgoErr String
  gen : Except Unit Nat
  insert : Option MgoErr

/-- `Tokenize` from `tokenizer.go` over the response-trace semantics: each loop
iteration consumes one `IterResp`.  A generator failure is a `log.Panic`.  The
returned error again reproduces the `err` shadowing: after a successful insert
or a non-duplicate insert failure the function returns the `mgo.NotFound` left
in the outer `err` by `fetchToken`. -/
def TokenizeR : List IterResp → TokOutcome
  | [] => TokOutcome.outOfFuel
  | r :: rest =>
    match r.fetch with
    | Except.ok token => TokOutcome.ret token none
    | Except.error e =>
      if e = MgoErr.notFound then
        match r.gen with
        | Except.error _ => TokOutcome.panicked
        | Except.ok g =>
          match r.insert with
          | none => TokOutcome.ret (encodeToken g) (some MgoErr.notFound)
          | some e2 =>
            if isDupKey e2 then TokenizeR rest
            else TokOutcome.ret "" (some MgoErr.notFound)
      else TokOutcome.ret "" (some e)

/-- Error values `Detokenize` may return in its Go `error` slot: the package's
`TokenNotFound` value, or (per the declared contract, never produced by the
code) a surfaced store error. -/
inductive DetokErr where
  | tokenNotFound
  | store (e : MgoErr)
deriving DecidableEq

/-- Result of a `Detokenize` call: the returned `(orig, err)` pair or a
`log.Panic`. -/
inductive DetokOutcome where
  | ret (orig : String) (err : Option DetokErr)
  | panicked
deriving DecidableEq

/-- `Detokenize` from `tokenizer.go`, parametric in the response of the store
query `col.Find(bson.M, token s).One(&result)`: `mgo.NotFound` yields the
`TokenNotFound` error, any other query error hits the `log.Panic(err)` branch,
and a found record yields its original text with a nil error. -/
def DetokenizeResp (resp : Except MgoErr tokenRecord) : DetokOutcome :=
  match resp with
  | Except.error MgoErr.notFound => DetokOutcome.ret "" (some DetokErr.tokenNotFound)
  | Except.error _ => DetokOutcome.panicked
  | Except.ok r => DetokOutcome.ret r.text none

/-- The store query of `Detokenize`: first document whose bson key `token` has
value `s` — this key does match the marshaled records — or `mgo.NotFound`. -/
def findByToken (st : List tokenRecord) (s : String) : Except MgoErr tokenRecord :=
  match st.find? (fun r => r.token == s) with
  | some r => Except.ok r
  | none => Except.error MgoErr.notFound

/-- `Detokenize` from `tokenizer.go` over the store-level semantics.  It is a
pure query: no store state is produced because the function performs no
insert, update or delete. -/
def Detokenize (st : List tokenRecord) (s : String) : DetokOutcome :=
  DetokenizeResp (findByToken st s)

/-- Pairwise distinctness of the field selected by `f` across a record list;
Boolean so that concrete stores can be checked by evaluation. -/
def noDupBy (f : tokenRecord → String) : List tokenRecord → Bool
  | [] => true
  | r :: rest => (rest.all fun q => f q != f r) && noDupBy f rest

/-- Pairwise distinctness of the original texts across the store. -/
def noDupTexts (st : List tokenRecord) : Bool :=
  noDupBy (fun r => r.text) st

/-- Pairwise distinctness of the tokens across the store. -/
def noDupTokens (st : List tokenRecord) : Bool :=
  noDupBy (fun r => r.token) st

/-! ### Helper lemmas -/

theorem bsonGet_original (r : tokenRecord) : bsonGet r "original" = none := rfl

theorem fetchToken_misses (st : List tokenRecord) (s : String) :
    fetchToken st s = Except.error MgoErr.notFound := by
  unfold fetchToken
  have h : st.find? (fun r => bsonGet r "original" == some s) = none := by
    rw [List.find?_eq_none]
    intro x hx
    rw [bsonGet_original]
    simp
  rw [h]

theorem insertPred_eq (q r : tokenRecord) :
    (((bsonGet q "original").isSome && bsonGet q "original" == bsonGet r "original")
      || bsonGet q "token" == bsonGet r "token") = (q.token == r.token) := rfl

theorem find?_append_fresh (f : tokenRecord → String) (v : String) (rec : tokenRecord) :
    ∀ {l : List tokenRecord}, (∀ q ∈ l, f q ≠ v) → f rec = v →
      (l ++ [rec]).find? (fun q => f q == v) = some rec := by
  intro l
  induction l with
  | nil => intro _ hv; simp [List.find?, hv]
  | cons a rest ih =>
    intro hfresh hv
    have hne : (f a == v) = false := by
      simp only [beq_eq_false_iff_ne, ne_eq]
      exact hfresh a (List.mem_cons_self a rest)
    simp only [List.cons_append, List.find?, hne]
    exact ih (fun q hq => hfresh q (List.mem_cons_of_mem a hq)) hv

theorem insertRecord_ok {st st' : List tokenRecord} {r : tokenRecord}
    (h : insertRecord st r = Except.ok st') :
    st' = st ++ [r] ∧ ∀ q ∈ st, q.token ≠ r.token := by
  unfold insertRecord at h
  split at h
  next hany => exact Except.noConfusion h
  next hany =>
    refine ⟨(Except.ok.inj h).symm, ?_⟩
    intro q hq hcontra
    apply hany
    refine List.any_eq_true.mpr ⟨q, hq, ?_⟩
    rw [insertPred_eq]
    exact beq_iff_eq.mpr hcontra

theorem insertRecord_error {st : List tokenRecord} {r : tokenRecord} {e : MgoErr}
    (h : insertRecord st r = Except.error e) :
    e = MgoErr.lastError 11000 := by
  unfold insertRecord at h
  split at h
  next => exact (Except.error.inj h).symm
  next => exact Except.noConfusion h

/-- Every `Tokenize` call either runs out of supplied guids with the store
unchanged, or mints: it returns a fresh token `t` (no stored document carries
it), appends the one new record, and — through the `err` shadowing — reports
`mgo.NotFound`.  The lookup-found exit is unreachable because the query by the
bson key `original` never matches a stored document. -/
theorem Tokenize_cases (s : String) :
    ∀ (gens : List Nat) (st st' : List tokenRecord) (out : TokOutcome),
      Tokenize s gens st = (out, st') →
        (out = TokOutcome.outOfFuel ∧ st' = st)
      ∨ (∃ t, out = TokOutcome.ret t (some MgoErr.notFound) ∧
            st' = st ++ [{ text := s, token := t }] ∧ ∀ q ∈ st, q.token ≠ t) := by
  intro gens
  induction gens with
  | nil =>
    intro st st' out h
    unfold Tokenize at h
    split at h
    next token hf =>
      rw [fetchToken_misses] at hf
      exact Except.noConfusion hf
    next e hf =>
      rw [fetchToken_misses] at hf
      have he := Except.error.inj hf
      subst he
      rw [if_pos rfl] at h
      injection h with h1 h2
      subst h1; subst h2
      exact Or.inl ⟨rfl, rfl⟩
  | cons g gens' ih =>
    intro st st' out h
    unfold Tokenize at h
    split at h
    next token hf =>
      rw [fetchToken_misses] at hf
      exact Except.noConfusion hf
    next e hf =>
      rw [fetchToken_misses] at hf
      have he := Except.error.inj hf
      subst he
      rw [if_pos rfl] at h
      split at h
      next st2 hins =>
        injection h with h1 h2
        subst h1; subst h2
        obtain ⟨hst2, hfresh⟩ := insertRecord_ok hins
        exact Or.inr ⟨encodeToken g, rfl, hst2, hfresh⟩
      next e2 hins =>
        have he2 := insertRecord_error hins
        subst he2
        rw [if_pos (by decide)] at h
        exact ih st st' out h

/-! ### The claims -/

/-- C1: Round trip — whenever `Tokenize` applied to `x` returns a token `t`,
`Detokenize` applied to `t` on the resulting store returns `x` with a nil
error.  Every returned token is freshly minted (the lookup by the bson key
`original` never resolves), its record is appended, and no earlier document
carries the token, so the lookup by the bson key `token` finds exactly that
record. -/
theorem C1_roundTrip {x t : String} {e : Option MgoErr} {gens : List Nat}
    {st st' : List tokenRecord}
    (h : Tokenize x gens st = (TokOutcome.ret t e, st')) :
    Detokenize st' t = DetokOutcome.ret x none := by
  rcases Tokenize_cases x gens st st' _ h with ⟨hout, _⟩ | ⟨t2, hout, hst, hfresh⟩
  · exact TokOutcome.noConfusion hout
  · injection hout with h1 h2
    subst h1
    rw [hst]
    have hfd := find?_append_fresh (fun q => q.token) t { text := x, token := t } hfresh rfl
    simp [Detokenize, findByToken, DetokenizeResp, hfd]

/-- Witness for C1 on a real repeat-mint trace: the store already holds
`("hello", "T")`, the call mints the fresh token `"MQ=="` anyway, and
detokenizing `"MQ=="` recovers `"hello"`. -/
theorem C1_roundTrip_witness :
    Detokenize [{ text := "hello", token := "T" }, { text := "hello", token := "MQ==" }] "MQ=="
      = DetokOutcome.ret "hello" none :=
  @C1_roundTrip "hello" "MQ==" (some MgoErr.notFound) [1]
    [{ text := "hello", token := "T" }]
    [{ text := "hello", token := "T" }, { text := "hello", token := "MQ==" }] (by decide)

/-- C2 (code bug): `Tokenize` is not idempotent.  A first call on the empty
store mints `"MQ=="` for `"a"`; the second call queries the bson key
`original`, which the stored document (keys `text`, `token`) does not have, so
the lookup misses, a fresh token `"Mg=="` is minted, and the sparse unique
index on the absent `original` key lets the duplicate-text insert succeed.
The two sequential calls return different tokens. -/
theorem C2_notIdempotent :
    Tokenize "a" [1] []
      = (TokOutcome.ret "MQ==" (some MgoErr.notFound), [{ text := "a", token := "MQ==" }])
    ∧ Tokenize "a" [2] [{ text := "a", token := "MQ==" }]
      = (TokOutcome.ret "Mg==" (some MgoErr.notFound),
         [{ text := "a", token := "MQ==" }, { text := "a", token := "Mg==" }])
    ∧ ("MQ==" : String) ≠ "Mg==" :=
  ⟨by decide, by decide, by decide⟩

/-- C3 (code bug): a successful mint does not return cleanly.  In the empty
store, tokenizing `"hello"` with guid 1 inserts the record and returns the new
token `"MQ=="`, but the accompanying error is `mgo.NotFound` — not nil —
because `guid, err := guid.NextId()` shadows the function-level `err`, so the
successful `col.Insert` result never reaches the returned error. -/
theorem C3_mintReturnsNotFoundErr :
    Tokenize "hello" [1] []
      = (TokOutcome.ret "MQ==" (some MgoErr.notFound), [{ text := "hello", token := "MQ==" }])
    ∧ some MgoErr.notFound ≠ (none : Option MgoErr) :=
  ⟨by decide, by decide⟩

/-- C4 (code bug): fatal-error propagation fails in two of its three cases.  A
lookup failure other than `NotFound` is returned as-is (third conjunct), but a
non-duplicate insert failure is reported as `mgo.NotFound` instead of the
insert's own error (first conjunct, the `err` shadowing), and a generator
failure panics — terminating the process — instead of returning the error
(second conjunct). -/
theorem C4_fatalErrors :
    TokenizeR [⟨Except.error MgoErr.notFound, Except.ok 1, some (MgoErr.other 0)⟩]
      = TokOutcome.ret "" (some MgoErr.notFound)
    ∧ TokenizeR [⟨Except.error MgoErr.notFound, Except.error (), none⟩]
      = TokOutcome.panicked
    ∧ TokenizeR [⟨Except.error (MgoErr.other 3), Except.ok 1, none⟩]
      = TokOutcome.ret "" (some (MgoErr.other 3)) :=
  ⟨by decide, by decide, by decide⟩

/-- C5 (code bug): `Detokenize` returns the stored original on a hit and the
`TokenNotFound` error exactly on a `NotFound` store response, but any other
store error hits the `log.Panic` branch — it is never surfaced to the
caller. -/
theorem C5_detokenizeContract :
    (∀ r : tokenRecord, DetokenizeResp (Except.ok r) = DetokOutcome.ret r.text none)
    ∧ DetokenizeResp (Except.error MgoErr.notFound)
      = DetokOutcome.ret "" (some DetokErr.tokenNotFound)
    ∧ DetokenizeResp (Except.error (MgoErr.other 0)) = DetokOutcome.panicked :=
  ⟨fun _ => rfl, rfl, rfl⟩

/-- C6: Retry on uniqueness conflict — when the insert fails with a
duplicate-key error (MongoDB code 11000) the loop goes back to the lookup step
(first conjunct), and on any trace whose lookup responses are not duplicate-key
errors (a find never produces one), a duplicate-key error is never itself the
error returned to the caller (second conjunct). -/
theorem C6_dupKeyRetry :
    (∀ (g : Nat) (rest : List IterResp) (e : MgoErr), isDupKey e = true →
        TokenizeR (⟨Except.error MgoErr.notFound, Except.ok g, some e⟩ :: rest)
          = TokenizeR rest)
    ∧ (∀ (rs : List IterResp) (t : String) (e : MgoErr),
        (∀ r ∈ rs, ∀ e2, r.fetch = Except.error e2 → isDupKey e2 = false) →
        TokenizeR rs = TokOutcome.ret t (some e) → isDupKey e = false) := by
  constructor
  · intro g rest e hdup
    simp [TokenizeR, hdup]
  · intro rs
    induction rs with
    | nil =>
      intro t e _ hret
      simp [TokenizeR] at hret
    | cons r rest ih =>
      intro t e hfOK hret
      unfold TokenizeR at hret
      split at hret
      next token hf =>
        injection hret with h1 h2
        exact Option.noConfusion h2
      next e0 hf =>
        split at hret
        next he0 =>
          subst he0
          split at hret
          next hgen => exact TokOutcome.noConfusion hret
          next g hgen =>
            split at hret
            next hins =>
              injection hret with h1 h2
              rw [← Option.some.inj h2]
              decide
            next e2 hins =>
              split at hret
              next hdup =>
                exact ih t e (fun q hq e3 hf3 => hfOK q (List.mem_cons_of_mem r hq) e3 hf3) hret
              next hndup =>
                injection hret with h1 h2
                rw [← Option.some.inj h2]
                decide
        next he0 =>
          injection hret with h1 h2
          rw [← Option.some.inj h2]
          exact hfOK r (List.mem_cons_self r rest) e0 hf

/-- Witness for C6: a duplicate-key insert failure makes the loop recurse on
the remaining trace, and a mint iteration's returned error is not a
duplicate-key error. -/
theorem C6_dupKeyRetry_witness :
    TokenizeR [⟨Except.error MgoErr.notFound, Except.ok 1, some (MgoErr.lastError 11000)⟩]
      = TokenizeR []
    ∧ isDupKey MgoErr.notFound = false :=
  ⟨C6_dupKeyRetry.1 1 [] (MgoErr.lastError 11000) (by decide),
   C6_dupKeyRetry.2 [⟨Except.error MgoErr.notFound, Except.ok 1, none⟩] "MQ==" MgoErr.notFound
     (by
       intro r hr e2 hf
       have hr2 : r = ⟨Except.error MgoErr.notFound, Except.ok 1, none⟩ := by simpa using hr
       subst hr2
       have he : MgoErr.notFound = e2 := Except.error.inj hf
       rw [← he]
       decide)
     (by decide)⟩

/-- C7 (code bug): the store does not keep original values unique.  With the
collection holding the record for `"b"` stored under the keys `text`/`token`,
a new `Tokenize("b")` misses its lookup (query key `original`), and the unique
index on `original` — sparse, over a key no document has — does not reject the
insert, so a second record with the same original text lands in the store. -/
theorem C7_dupTexts :
    Tokenize "b" [1] [{ text := "b", token := "T" }]
      = (TokOutcome.ret "MQ==" (some MgoErr.notFound),
         [{ text := "b", token := "T" }, { text := "b", token := "MQ==" }])
    ∧ noDupTexts [{ text := "b", token := "T" }, { text := "b", token := "MQ==" }] = false :=
  ⟨by decide, by decide⟩

/-- C8: Injectivity — under the unique-token store invariant, tokenizing two
distinct originals in sequence yields distinct tokens: the second call's
insert is only accepted when its token differs from every stored token,
including the one the first call minted. -/
theorem C8_injective {x y t1 t2 : String} {e1 e2 : Option MgoErr} {g1 g2 : List Nat}
    {st st1 st2 : List tokenRecord}
    (_hwf : noDupTokens st = true) (_hxy : x ≠ y)
    (h1 : Tokenize x g1 st = (TokOutcome.ret t1 e1, st1))
    (h2 : Tokenize y g2 st1 = (TokOutcome.ret t2 e2, st2)) :
    t1 ≠ t2 := by
  rcases Tokenize_cases x g1 st st1 _ h1 with ⟨hout, _⟩ | ⟨u1, hout1, hst1, _⟩
  · exact TokOutcome.noConfusion hout
  · rcases Tokenize_cases y g2 st1 st2 _ h2 with ⟨hout, _⟩ | ⟨u2, hout2, hst2, hfresh2⟩
    · exact TokOutcome.noConfusion hout
    · injection hout1 with ha _
      injection hout2 with hb _
      subst ha
      subst hb
      intro heq
      have hmem : ({ text := x, token := t1 } : tokenRecord) ∈ st1 := by
        rw [hst1]
        simp
      exact hfresh2 _ hmem heq

/-- Witness for C8: tokenizing `"a"` then `"b"` from the empty store yields the
distinct tokens `"MQ=="` and `"Mg=="`. -/
theorem C8_injective_witness : ("MQ==" : String) ≠ "Mg==" :=
  @C8_injective "a" "b" "MQ==" "Mg==" (some MgoErr.notFound) (some MgoErr.notFound) [1] [2]
    [] [{ text := "a", token := "MQ==" }]
    [{ text := "a", token := "MQ==" }, { text := "b", token := "Mg==" }]
    (by decide) (by decide) (by decide) (by decide)

/-- C10 (code bug): there is no reachable fast path.  Even when the store
holds a record whose original text is `"c"`, the lookup — querying the bson
key `original`, which the stored document lacks — misses, so `Tokenize`
consults the generator, inserts a second record, changes the store, and
returns a fresh token with a non-nil error instead of the existing token with
the store unchanged. -/
theorem C10_noFastPath :
    fetchToken [{ text := "c", token := "T" }] "c" = Except.error MgoErr.notFound
    ∧ Tokenize "c" [1] [{ text := "c", token := "T" }]
      = (TokOutcome.ret "MQ==" (some MgoErr.notFound),
         [{ text := "c", token := "T" }, { text := "c", token := "MQ==" }]) :=
  ⟨rfl, by decide⟩
